import Mathlib

/-!
Verification development for the ADB server bridge module
(`internal/adb/adb-client.go` and `types/models/adb.go`).

The bridge module is embedded shallowly: pure computations (state
normalization, package-list parsing, argument construction, per-device
enrichment) become Lean functions translated line by line from the Go
source; the blocking transport calls become explicit parameters (the
result an oracle call would have produced), and the goroutine/select
concurrency becomes explicit outcome data (which arm of a `select` fired,
the finite trace of events a watcher goroutine consumed).
-/

set_option maxRecDepth 4000

namespace AdbSrv

/-- Modelled from the spec: the transport's raw device-state type
(`goadb.DeviceState`, an external collaborator not in this repository).
The spec's transport boundary names online/offline/unauthorized states,
an "invalid" sentinel used when a query itself failed, and leaves room
for other states (a disconnected device); one constructor per case. -/
inductive AdbDeviceState where
  | stateInvalid
  | stateDisconnected
  | stateOffline
  | stateOnline
  | stateUnauthorized
  deriving DecidableEq, Fintype

/-- The canonical device-state enum of `types/models/adb.go`. -/
inductive DeviceState where
  | offline
  | booting
  | unauthorized
  | online
  | unknown
  deriving DecidableEq, Fintype

/-- `convertState` from `adb-client.go`: switch on the raw transport
state, defaulting every unrecognized case to Unknown. -/
def convertState : AdbDeviceState → DeviceState
  | .stateOnline => .online
  | .stateOffline => .offline
  | .stateUnauthorized => .unauthorized
  | _ => .unknown

/-- The `models.Device` record. -/
structure Device where
  serial : String
  state : DeviceState
  model : String
  manufacturer : String
  isAuthorized : Bool
  deriving DecidableEq

/-- The `models.Package` record. -/
structure Package where
  name : String
  apkPath : String
  isSystem : Bool
  deriving DecidableEq

/-- The `models.ListPackageOptions` record. -/
structure ListPackageOptions where
  includeSystem : Bool
  includeUninstalled : Bool
  deriving DecidableEq

/-- The `models.DeviceStateChange` record; the timestamp is an abstract
instant (`time.Time` modelled as a natural clock value). -/
structure DeviceStateChange where
  serial : String
  oldState : DeviceState
  newState : DeviceState
  timestamp : Nat
  deriving DecidableEq

/-- The whitespace class of Go's `strings.TrimSpace` (ASCII part plus
NEL and NBSP, the Latin-1 space runes). -/
def isSpaceCh (c : Char) : Bool :=
  c == ' ' || c == '\t' || c == '\n' || c == '\r' ||
    c == Char.ofNat 11 || c == Char.ofNat 12 ||
    c == Char.ofNat 133 || c == Char.ofNat 160

/-- Go `strings.TrimSpace` on a character list: drop leading and
trailing whitespace. -/
def trimChars (l : List Char) : List Char :=
  ((l.dropWhile isSpaceCh).reverse.dropWhile isSpaceCh).reverse

/-- Go `strings.HasPrefix` on character lists. -/
def hasPre : List Char → List Char → Bool
  | [], _ => true
  | _ :: _, [] => false
  | p :: ps, c :: cs => p == c && hasPre ps cs

/-- Go `strings.TrimPrefix` on character lists: remove the prefix when
present, otherwise return the list unchanged. -/
def dropPre (p l : List Char) : List Char :=
  if hasPre p l then l.drop p.length else l

/-- Go `strings.LastIndex(line, "=")` specialised to a one-character
needle: the index of the last occurrence, if any. -/
def lastIdx (c : Char) : List Char → Option Nat
  | [] => none
  | a :: as =>
    match lastIdx c as with
    | some i => some (i + 1)
    | none => if a == c then some 0 else none

/-- Go `strings.Contains` on character lists. -/
def containsSub (needle : List Char) : List Char → Bool
  | [] => hasPre needle []
  | c :: cs => hasPre needle (c :: cs) || containsSub needle cs

/-- The `package:` literal stripped by the parser. -/
def pkgPreChars : List Char := "package:".data

/-- The `/system/` marker tested by the parser for system packages. -/
def systemSeg : List Char := "/system/".data

/-- One iteration of the parsing loop in `packages`: trim the line,
find the last `=`, skip empty lines, lines without the `package:`
prefix and lines without `=`; otherwise split at the last `=`,
strip the prefix from the path part and trim the name part. -/
def parseLine (raw : List Char) : Option Package :=
  let line := trimChars raw
  match lastIdx '=' line with
  | none => none
  | some i =>
    if line.isEmpty || !hasPre pkgPreChars line then none
    else
      let pkgPath := dropPre pkgPreChars (line.take i)
      let pkgName := trimChars (line.drop (i + 1))
      some { name := String.mk pkgName, apkPath := String.mk pkgPath,
             isSystem := containsSub systemSeg pkgPath }

/-- The parsing loop of `packages` over the scanned lines, appending a
record for every line `parseLine` keeps. -/
def parsePackages : List (List Char) → List Package
  | [] => []
  | l :: ls =>
    match parseLine l with
    | none => parsePackages ls
    | some p => p :: parsePackages ls

/-- `bufio.ScanLines` drops one trailing carriage return from each
scanned line; the accumulator is kept reversed, so the trailing `\r`
is its head. -/
def dropCRHead : List Char → List Char
  | '\r' :: rest => rest
  | l => l

/-- Worker for `splitLines`: the accumulator holds the current line
reversed. -/
def splitLinesGo : List Char → List Char → List (List Char)
  | [], [] => []
  | [], acc => [(dropCRHead acc).reverse]
  | '\n' :: rest, acc => (dropCRHead acc).reverse :: splitLinesGo rest []
  | c :: rest, acc => splitLinesGo rest (c :: acc)

/-- `bufio.Scanner` with `ScanLines` over the command output: split on
newlines, drop one trailing `\r` per line, no empty token after a
final newline. -/
def splitLines (cs : List Char) : List (List Char) :=
  splitLinesGo cs []

/-- The argument list built by `packages`: base `-f`, then `-u` when
uninstalled packages are included, then `-s` or `-3`. -/
def packageArgs (opts : ListPackageOptions) : List String :=
  let args := ["-f"]
  let args := if opts.includeUninstalled then args ++ ["-u"] else args
  if opts.includeSystem then args ++ ["-s"] else args ++ ["-3"]

/-- The transport facts `packages` consumes: whether
`getDevice` resolved a handle, and the outcome `RunCommand` would
report for a given command and argument list. -/
structure PmTransport where
  deviceFound : Bool
  runCommand : String → List String → Except String String

/-- `packages` from `adb-client.go`: fail when the device handle is
nil, run `pm list packages` with the derived flags, and parse the
output line by line. -/
def packagesGo (t : PmTransport) (opts : ListPackageOptions) : Except String (List Package) :=
  if !t.deviceFound then Except.error "device not found"
  else
    match t.runCommand "pm list packages" (packageArgs opts) with
    | Except.error e => Except.error e
    | Except.ok out => Except.ok (parsePackages (splitLines out.data))

/-- The per-entry row of `ListDevices`: serial and model, as the
transport reports them. -/
structure DeviceInfo where
  serial : String
  model : String
  deriving DecidableEq

/-- The per-device transport outcomes `devices` consumes for one entry:
what `device.State()` returned (`none` = the query errored) and what
`RunCommand("getprop", "ro.product.manufacturer")` returned
(`none` = the command errored; `some` carries the raw, untrimmed
output). -/
structure DeviceQueries where
  stateResult : Option AdbDeviceState
  manufacturerResult : Option String
  deriving DecidableEq

/-- The body of the `devices` loop for one entry: a failed state query
degrades to the invalid sentinel and skips the manufacturer read; a
failed or whitespace-only manufacturer read defaults to "Unknown";
`isAuthorized` is the comparison of the normalized state with Online. -/
def enrichDevice (info : DeviceInfo) (q : DeviceQueries) : Device :=
  let deviceState : AdbDeviceState :=
    match q.stateResult with
    | none => .stateInvalid
    | some s => s
  let rawManu : List Char :=
    match q.stateResult with
    | none => []
    | some _ =>
      match q.manufacturerResult with
      | none => []
      | some m => trimChars m.data
  let deviceManufacturer : String :=
    if rawManu = [] then "Unknown" else String.mk rawManu
  let standardizedState := convertState deviceState
  { serial := info.serial
    state := standardizedState
    model := info.model
    manufacturer := deviceManufacturer
    isAuthorized := decide (standardizedState = DeviceState.online) }

/-- The `devices` loop over all enumerated entries, appending one
record per entry. -/
def enumerateDevices : List (DeviceInfo × DeviceQueries) → List Device
  | [] => []
  | (i, q) :: rest => enrichDevice i q :: enumerateDevices rest

/-- `devices` from `adb-client.go` as a function of the `ListDevices`
outcome: an error in the base list is returned as is; otherwise every
entry is enriched and the whole list returned. -/
def devicesResult (lst : Except String (List (DeviceInfo × DeviceQueries))) :
    Except String (List Device) :=
  match lst with
  | Except.error e => Except.error e
  | Except.ok ds => Except.ok (enumerateDevices ds)

/-- One event of the transport's device watcher stream
(`goadb` `DeviceStateChangedEvent`): serial plus raw old/new states. -/
structure WatchEvent where
  serial : String
  oldRawState : AdbDeviceState
  newRawState : AdbDeviceState
  deriving DecidableEq

/-- One resolution of the `select` at the head of the watcher loop in
`TrackDeviceStates`: the context fired, the upstream channel closed, or
an event arrived.  An event carries the wall-clock instant at which the
loop processes it and whether the context fired during the delivery
`select` (before the consumer took the emitted change). -/
inductive UpStep where
  | ctxDone
  | upstreamClosed
  | event (ev : WatchEvent) (deliveryCancelled : Bool) (now : Nat)
  deriving DecidableEq

/-- The `DeviceStateChange` built in the watcher loop body: the watched
serial, both states normalized, and the current time. -/
def mkStateChange (deviceSerial : String) (ev : WatchEvent) (now : Nat) : DeviceStateChange :=
  { serial := deviceSerial
    oldState := convertState ev.oldRawState
    newState := convertState ev.newRawState
    timestamp := now }

/-- The watcher goroutine of `TrackDeviceStates` run over a finite
trace of `select` resolutions: the emitted changes in order, and
whether the deferred `close(stateChannel)` has run (the goroutine
returned).  A non-matching serial is discarded; a matching one is
emitted unless the context fired during delivery; context firing or
upstream closure returns from the goroutine, closing the stream. -/
def watcherRun (deviceSerial : String) : List UpStep → List DeviceStateChange × Bool
  | [] => ([], false)
  | .ctxDone :: _ => ([], true)
  | .upstreamClosed :: _ => ([], true)
  | .event ev dc now :: rest =>
    if ev.serial == deviceSerial then
      if dc then ([], true)
      else
        let r := watcherRun deviceSerial rest
        (mkStateChange deviceSerial ev now :: r.1, r.2)
    else watcherRun deviceSerial rest

/-- Whether one `select` resolution makes the watcher goroutine
return (and so close the output stream). -/
def stepTerminates (deviceSerial : String) : UpStep → Bool
  | .ctxDone => true
  | .upstreamClosed => true
  | .event ev dc _ => ev.serial == deviceSerial && dc

/-- The error a public operation returns: the context's error when the
cancellation arm of the `select` wins (a distinct constructor), or the
error the wrapped call produced. -/
inductive OpError where
  | cancelled (msg : String)
  | transport (msg : String)
  deriving DecidableEq

/-- Tag a wrapped call's own outcome as a transport-side outcome. -/
def liftTransport {α : Type} : Except String α → Except OpError α
  | Except.ok v => Except.ok v
  | Except.error e => Except.error (OpError.transport e)

/-- The goroutine-plus-`select` wrapper shared by `Version`, `Devices`
and `Packages`: `ctxDoneFirst` says which arm of the `select` resolved
first; `call` is the outcome the goroutine sends on the completion
channel, `none` while the blocking call has not completed.  The result
is `none` exactly when the caller is still blocked (no cancellation and
no completion yet). -/
def raceSelect {α : Type} (ctxDoneFirst : Bool) (ctxErr : String)
    (call : Option (Except String α)) : Option (Except OpError α) :=
  if ctxDoneFirst then some (Except.error (OpError.cancelled ctxErr))
  else call.map liftTransport

/-- `Version` from `adb-client.go`: `ServerVersion` raced against the
context. -/
def VersionOp (ctxDoneFirst : Bool) (ctxErr : String)
    (serverVersion : Option (Except String Int)) : Option (Except OpError Int) :=
  raceSelect ctxDoneFirst ctxErr serverVersion

/-- `Devices` from `adb-client.go`: the `devices` helper raced against
the context; `listCall` is the `ListDevices` outcome once it completes,
together with the per-device query outcomes the helper then consumes. -/
def DevicesOp (ctxDoneFirst : Bool) (ctxErr : String)
    (listCall : Option (Except String (List (DeviceInfo × DeviceQueries)))) :
    Option (Except OpError (List Device)) :=
  raceSelect ctxDoneFirst ctxErr (listCall.map devicesResult)

/-- `Packages` from `adb-client.go`: the `packages` helper raced
against the context. -/
def PackagesOp (ctxDoneFirst : Bool) (ctxErr : String)
    (call : Option PmTransport) (opts : ListPackageOptions) :
    Option (Except OpError (List Package)) :=
  raceSelect ctxDoneFirst ctxErr (call.map (fun t => packagesGo t opts))

/-! ### Helper lemmas -/

/-- The enumeration loop is a pointwise map over the entries. -/
theorem enumerateDevices_eq_map (ds : List (DeviceInfo × DeviceQueries)) :
    enumerateDevices ds = ds.map (fun p => enrichDevice p.1 p.2) := by
  induction ds with
  | nil => rfl
  | cons p rest ih =>
    cases p
    simp [enumerateDevices, ih]

/-- The parsing loop is a pointwise filterMap over the lines. -/
theorem parsePackages_eq_filterMap (ls : List (List Char)) :
    parsePackages ls = ls.filterMap parseLine := by
  induction ls with
  | nil => rfl
  | cons l rest ih =>
    cases h : parseLine l <;> simp [parsePackages, h, ih]

/-- A character absent from a list has no last index there. -/
theorem lastIdx_eq_none_of_not_mem {c : Char} {l : List Char} (h : c ∉ l) :
    lastIdx c l = none := by
  induction l with
  | nil => rfl
  | cons a as ih =>
    simp only [List.mem_cons, not_or] at h
    have hne : (a == c) = false := by
      simp only [beq_eq_false_iff_ne]
      exact fun e => h.1 e.symm
    simp [lastIdx, ih h.2, hne]

/-- The last index of `c` in `p ++ c :: s` is `p.length` when `s` has
no further occurrence. -/
theorem lastIdx_append_last {c : Char} (p s : List Char) (h : c ∉ s) :
    lastIdx c (p ++ c :: s) = some p.length := by
  induction p with
  | nil => simp [lastIdx, lastIdx_eq_none_of_not_mem h]
  | cons a as ih => simp [lastIdx, ih]

theorem take_append_len (p s : List Char) (c : Char) :
    (p ++ c :: s).take p.length = p := by
  induction p with
  | nil => rfl
  | cons a as ih => simp [ih]

theorem drop_append_succ (p s : List Char) (c : Char) :
    (p ++ c :: s).drop (p.length + 1) = s := by
  induction p with
  | nil => rfl
  | cons a as ih => exact ih

theorem isEmpty_append_cons (p s : List Char) (c : Char) :
    (p ++ c :: s).isEmpty = false := by
  cases p <;> rfl

/-- A kept line splits at the last `=`: prefix-stripped path before it,
trimmed name after it. -/
theorem parseLine_keep (raw p s : List Char) (htrim : trimChars raw = p ++ '=' :: s)
    (hs : ('=' : Char) ∉ s) (hpre : hasPre pkgPreChars (p ++ '=' :: s) = true) :
    parseLine raw = some { name := String.mk (trimChars s),
                           apkPath := String.mk (dropPre pkgPreChars p),
                           isSystem := containsSub systemSeg (dropPre pkgPreChars p) } := by
  simp only [parseLine, htrim, lastIdx_append_last p s hs, isEmpty_append_cons, hpre,
    Bool.not_true, Bool.or_false, take_append_len, drop_append_succ]
  simp

/-- Every record the parser keeps carries the `/system/` containment
test of its own path as `isSystem`. -/
theorem parseLine_isSystem (l : List Char) (pkg : Package) (h : parseLine l = some pkg) :
    pkg.isSystem = containsSub systemSeg pkg.apkPath.data := by
  revert h
  simp only [parseLine]
  cases hm : lastIdx '=' (trimChars l) with
  | none => intro h; cases h
  | some i =>
    by_cases hc : ((trimChars l).isEmpty || !hasPre pkgPreChars (trimChars l)) = true
    · simp [hc]
    · simp only [Bool.not_eq_true] at hc
      simp only [hc, Bool.false_eq_true, if_false, Option.some.injEq]
      rintro rfl
      rfl

theorem mem_parsePackages_isSystem (ls : List (List Char)) (pkg : Package)
    (h : pkg ∈ parsePackages ls) :
    pkg.isSystem = containsSub systemSeg pkg.apkPath.data := by
  induction ls with
  | nil => cases h
  | cons l rest ih =>
    simp only [parsePackages] at h
    cases hl : parseLine l with
    | none =>
      rw [hl] at h
      exact ih h
    | some p =>
      rw [hl] at h
      rcases List.mem_cons.mp h with rfl | hmem
      · exact parseLine_isSystem l pkg hl
      · exact ih hmem

/-- The closed-flag of a watcher run is exactly "some step terminated
the loop". -/
theorem watcherRun_snd_eq_any (x : String) (tr : List UpStep) :
    (watcherRun x tr).2 = tr.any (stepTerminates x) := by
  induction tr with
  | nil => rfl
  | cons st rest ih =>
    cases st with
    | ctxDone => simp [watcherRun, stepTerminates]
    | upstreamClosed => simp [watcherRun, stepTerminates]
    | event ev dc now =>
      cases hser : ev.serial == x with
      | false => simp [watcherRun, stepTerminates, hser, ih]
      | true => cases dc <;> simp [watcherRun, stepTerminates, hser, ih]

theorem watcherRun_ctxDone_final (x : String) (pre post post' : List UpStep) :
    watcherRun x (pre ++ UpStep.ctxDone :: post) = watcherRun x (pre ++ UpStep.ctxDone :: post') := by
  induction pre with
  | nil => rfl
  | cons st rest ih =>
    cases st with
    | ctxDone => rfl
    | upstreamClosed => rfl
    | event ev dc now =>
      cases hser : ev.serial == x with
      | false => simpa [watcherRun, hser] using ih
      | true => cases dc <;> simp [watcherRun, hser, ih]

theorem watcherRun_upstreamClosed_final (x : String) (pre post post' : List UpStep) :
    watcherRun x (pre ++ UpStep.upstreamClosed :: post) =
      watcherRun x (pre ++ UpStep.upstreamClosed :: post') := by
  induction pre with
  | nil => rfl
  | cons st rest ih =>
    cases st with
    | ctxDone => rfl
    | upstreamClosed => rfl
    | event ev dc now =>
      cases hser : ev.serial == x with
      | false => simpa [watcherRun, hser] using ih
      | true => cases dc <;> simp [watcherRun, hser, ih]

/-- Every change a watcher run emits was built by `mkStateChange` for
the watched serial. -/
theorem watcherRun_mem_shape (x : String) (tr : List UpStep) (c : DeviceStateChange)
    (h : c ∈ (watcherRun x tr).1) : ∃ ev now, c = mkStateChange x ev now := by
  induction tr with
  | nil => cases h
  | cons st rest ih =>
    cases st with
    | ctxDone => cases h
    | upstreamClosed => cases h
    | event ev dc now =>
      revert h
      cases hser : ev.serial == x with
      | false =>
        intro h
        exact ih (by simpa [watcherRun, hser] using h)
      | true =>
        cases dc with
        | true => intro h; simp [watcherRun, hser] at h
        | false =>
          intro h
          have h' : c = mkStateChange x ev now ∨ c ∈ (watcherRun x rest).1 := by
            simpa [watcherRun, hser] using h
          rcases h' with rfl | hmem
          · exact ⟨ev, now, rfl⟩
          · exact ih hmem

theorem enrichDevice_state_eq (i : DeviceInfo) (q : DeviceQueries) :
    (enrichDevice i q).state = convertState (match q.stateResult with
      | none => AdbDeviceState.stateInvalid
      | some s => s) := rfl

/-! ### Claim theorems -/

/-- Claim C3: `convertState` is a total pure function mapping the
transport's online/offline/unauthorized states to the matching
canonical value, everything else (including the invalid sentinel) to
Unknown, and restricted to the recognized set it is a bijection onto
the canonical online/offline/unauthorized values. -/
theorem c3_convertState_normalization :
    convertState AdbDeviceState.stateOnline = DeviceState.online
    ∧ convertState AdbDeviceState.stateOffline = DeviceState.offline
    ∧ convertState AdbDeviceState.stateUnauthorized = DeviceState.unauthorized
    ∧ (∀ s : AdbDeviceState,
        s ≠ AdbDeviceState.stateOnline → s ≠ AdbDeviceState.stateOffline →
        s ≠ AdbDeviceState.stateUnauthorized → convertState s = DeviceState.unknown)
    ∧ convertState AdbDeviceState.stateInvalid = DeviceState.unknown
    ∧ (∀ s₁ s₂ : AdbDeviceState,
        (s₁ = AdbDeviceState.stateOnline ∨ s₁ = AdbDeviceState.stateOffline
          ∨ s₁ = AdbDeviceState.stateUnauthorized) →
        (s₂ = AdbDeviceState.stateOnline ∨ s₂ = AdbDeviceState.stateOffline
          ∨ s₂ = AdbDeviceState.stateUnauthorized) →
        convertState s₁ = convertState s₂ → s₁ = s₂)
    ∧ (∀ d : DeviceState,
        (d = DeviceState.online ∨ d = DeviceState.offline ∨ d = DeviceState.unauthorized) →
        ∃ s : AdbDeviceState,
          (s = AdbDeviceState.stateOnline ∨ s = AdbDeviceState.stateOffline
            ∨ s = AdbDeviceState.stateUnauthorized) ∧ convertState s = d) := by
  decide

/-- Witness for C3 at the disconnected raw state. -/
theorem c3_convertState_normalization_witness :
    convertState AdbDeviceState.stateDisconnected = DeviceState.unknown :=
  c3_convertState_normalization.2.2.2.1 AdbDeviceState.stateDisconnected
    (by decide) (by decide) (by decide)

/-- Claim C10: normalization never produces Booting, so no enumerated
device and no emitted state change ever carries the Booting state. -/
theorem c10_booting_unreachable :
    (∀ s : AdbDeviceState, convertState s ≠ DeviceState.booting)
    ∧ (∀ ds : List (DeviceInfo × DeviceQueries), ∀ d ∈ enumerateDevices ds,
        d.state ≠ DeviceState.booting)
    ∧ (∀ (x : String) (tr : List UpStep), ∀ c ∈ (watcherRun x tr).1,
        c.oldState ≠ DeviceState.booting ∧ c.newState ≠ DeviceState.booting) := by
  have hconv : ∀ s : AdbDeviceState, convertState s ≠ DeviceState.booting := by decide
  refine ⟨hconv, ?_, ?_⟩
  · intro ds d hd
    rw [enumerateDevices_eq_map] at hd
    obtain ⟨p, hp, rfl⟩ := List.mem_map.mp hd
    rw [enrichDevice_state_eq]
    exact hconv _
  · intro x tr c hc
    obtain ⟨ev, now, rfl⟩ := watcherRun_mem_shape x tr c hc
    exact ⟨hconv _, hconv _⟩

/-- Witness for C10 on a one-device enumeration. -/
theorem c10_booting_unreachable_witness :
    (enrichDevice ⟨"serial1", "model1"⟩ ⟨some AdbDeviceState.stateOnline, none⟩).state
      ≠ DeviceState.booting :=
  c10_booting_unreachable.2.1
    [(⟨"serial1", "model1"⟩, ⟨some AdbDeviceState.stateOnline, none⟩)] _ (by decide)

/-- Claim C6: the argument list for the remote package-listing command
is exactly `-f`, then `-u` iff uninstalled packages are included, then
`-s` or `-3`; and `packages` consults the transport only at that
command and argument list. -/
theorem c6_package_args (opts : ListPackageOptions) :
    packageArgs opts =
      ["-f"] ++ (if opts.includeUninstalled then ["-u"] else [])
        ++ [if opts.includeSystem then "-s" else "-3"]
    ∧ (∀ t₁ t₂ : PmTransport, t₁.deviceFound = t₂.deviceFound →
        t₁.runCommand "pm list packages" (packageArgs opts) =
          t₂.runCommand "pm list packages" (packageArgs opts) →
        packagesGo t₁ opts = packagesGo t₂ opts) := by
  constructor
  · rcases opts with ⟨s, u⟩
    cases s <;> cases u <;> rfl
  · intro t₁ t₂ hdev hrun
    unfold packagesGo
    rw [hdev, hrun]

/-- Witness for C6: two transports agreeing on the derived invocation
yield the same result. -/
theorem c6_package_args_witness :
    packagesGo ⟨true, fun _ _ => Except.ok "package:/a=b"⟩ ⟨false, true⟩ =
      packagesGo ⟨true, fun _ _ => Except.ok "package:/a=b"⟩ ⟨false, true⟩ :=
  (c6_package_args ⟨false, true⟩).2 _ _ rfl rfl

/-- Claim C2: in every public operation (Version, Devices, Packages),
if the cancellation arm wins the race the operation returns the
context's error (a distinct error kind) even when the wrapped call
never completes; if the call completes first its value or error is
returned. -/
theorem c2_cancellation_race (ctxErr : String) :
    (∀ sv, VersionOp true ctxErr sv = some (Except.error (OpError.cancelled ctxErr)))
    ∧ (∀ lc, DevicesOp true ctxErr lc = some (Except.error (OpError.cancelled ctxErr)))
    ∧ (∀ c opts, PackagesOp true ctxErr c opts = some (Except.error (OpError.cancelled ctxErr)))
    ∧ (∀ v, VersionOp false ctxErr (some v) = some (liftTransport v))
    ∧ (∀ l, DevicesOp false ctxErr (some l) = some (liftTransport (devicesResult l)))
    ∧ (∀ t opts, PackagesOp false ctxErr (some t) opts = some (liftTransport (packagesGo t opts)))
    ∧ (∀ m m', decide (OpError.cancelled m = OpError.transport m') = false) := by
  exact ⟨fun _ => rfl, fun _ => rfl, fun _ _ => rfl, fun _ => rfl, fun _ => rfl,
    fun _ _ => rfl, fun _ _ => rfl⟩

/-- Claim C1: when the base device list is retrieved, enumeration
yields exactly one record per entry, each depending only on its own
entry; a failed state query degrades that record to Unknown state,
"Unknown" manufacturer and unauthorized, independently of the
manufacturer oracle; when the state query succeeds the manufacturer
read is consulted, with failed or whitespace-only output defaulting to
"Unknown"; and the whole call fails exactly when the base list does. -/
theorem c1_devices_partial_failure :
    (∀ ds, enumerateDevices ds = ds.map (fun p => enrichDevice p.1 p.2))
    ∧ (∀ ds, (enumerateDevices ds).length = ds.length)
    ∧ (∀ (i : DeviceInfo) (m : Option String), enrichDevice i ⟨none, m⟩ =
        { serial := i.serial, state := DeviceState.unknown, model := i.model,
          manufacturer := "Unknown", isAuthorized := false })
    ∧ (∀ (i : DeviceInfo) (s : AdbDeviceState), enrichDevice i ⟨some s, none⟩ =
        { serial := i.serial, state := convertState s, model := i.model,
          manufacturer := "Unknown",
          isAuthorized := decide (convertState s = DeviceState.online) })
    ∧ (∀ (i : DeviceInfo) (s : AdbDeviceState) (raw : String),
        enrichDevice i ⟨some s, some raw⟩ =
        { serial := i.serial, state := convertState s, model := i.model,
          manufacturer := if trimChars raw.data = [] then "Unknown"
            else String.mk (trimChars raw.data),
          isAuthorized := decide (convertState s = DeviceState.online) })
    ∧ (∀ ds, devicesResult (Except.ok ds) = Except.ok (enumerateDevices ds))
    ∧ (∀ e, devicesResult (Except.error e) = Except.error e) := by
  refine ⟨enumerateDevices_eq_map, ?_, fun i m => rfl, fun i s => rfl,
    fun i s raw => rfl, fun ds => rfl, fun e => rfl⟩
  intro ds
  rw [enumerateDevices_eq_map]
  exact ds.length_map _

/-- Claim C9: every enumerated record keeps its entry's serial (so it
is non-empty when the transport's serial is) and carries a defined
canonical state; no entry is dropped, and only a base-list failure
produces an error. -/
theorem c9_device_invariant (ds : List (DeviceInfo × DeviceQueries))
    (h : ∀ p ∈ ds, p.1.serial ≠ "") :
    (∀ d ∈ enumerateDevices ds, d.serial ≠ ""
        ∧ (d.state = DeviceState.offline ∨ d.state = DeviceState.booting
            ∨ d.state = DeviceState.unauthorized ∨ d.state = DeviceState.online
            ∨ d.state = DeviceState.unknown))
    ∧ (enumerateDevices ds).length = ds.length
    ∧ devicesResult (Except.ok ds) = Except.ok (enumerateDevices ds)
    ∧ (∀ e, devicesResult (Except.error e) = Except.error e) := by
  refine ⟨?_, ?_, rfl, fun e => rfl⟩
  · intro d hd
    rw [enumerateDevices_eq_map] at hd
    obtain ⟨p, hp, rfl⟩ := List.mem_map.mp hd
    refine ⟨h p hp, ?_⟩
    exact (by decide :
      ∀ st : DeviceState, st = DeviceState.offline ∨ st = DeviceState.booting
        ∨ st = DeviceState.unauthorized ∨ st = DeviceState.online
        ∨ st = DeviceState.unknown) _
  · rw [enumerateDevices_eq_map]
    exact ds.length_map _

/-- Witness for C9 on a one-entry enumeration whose state query
failed. -/
theorem c9_device_invariant_witness :
    (enumerateDevices [(⟨"serial1", "model1"⟩, ⟨none, none⟩)]).length = 1 :=
  (c9_device_invariant [(⟨"serial1", "model1"⟩, ⟨none, none⟩)] (by decide)).2.1

/-- Claim C4: lines are processed independently (the loop is a
filterMap), a line that trims to empty, lacks the `package:` prefix or
has no `=` is skipped, and a kept line splits at its last `=` into the
prefix-stripped APK path and the trimmed package name. -/
theorem c4_parser_line_independence :
    (∀ ls, parsePackages ls = ls.filterMap parseLine)
    ∧ (∀ l, trimChars l = [] → parseLine l = none)
    ∧ (∀ l, hasPre pkgPreChars (trimChars l) = false → parseLine l = none)
    ∧ (∀ l, lastIdx '=' (trimChars l) = none → parseLine l = none)
    ∧ (∀ raw p s, trimChars raw = p ++ '=' :: s → ('=' : Char) ∉ s →
        hasPre pkgPreChars (p ++ '=' :: s) = true →
        parseLine raw = some { name := String.mk (trimChars s),
                               apkPath := String.mk (dropPre pkgPreChars p),
                               isSystem := containsSub systemSeg (dropPre pkgPreChars p) }) := by
  refine ⟨parsePackages_eq_filterMap, ?_, ?_, ?_, parseLine_keep⟩
  · intro l h
    simp only [parseLine, h]
    rfl
  · intro l h
    simp only [parseLine, h]
    cases hm : lastIdx '=' (trimChars l) <;> simp
  · intro l h
    simp only [parseLine, h]

/-- Witness for C4 on a line whose path itself contains `=`. -/
theorem c4_parser_line_independence_witness :
    parseLine "package:/a=b=c".data =
      some { name := String.mk (trimChars "c".data),
             apkPath := String.mk (dropPre pkgPreChars "package:/a=b".data),
             isSystem := containsSub systemSeg (dropPre pkgPreChars "package:/a=b".data) } :=
  c4_parser_line_independence.2.2.2.2 "package:/a=b=c".data "package:/a=b".data "c".data
    (by decide) (by decide) (by decide)

/-- Claim C5: `isSystem` of every parsed package is exactly the
`/system/` containment test on its APK path, and the two concrete
example lines parse as the spec states. -/
theorem c5_isSystem_marker :
    (∀ ls, ∀ pkg ∈ parsePackages ls,
        pkg.isSystem = containsSub systemSeg pkg.apkPath.data)
    ∧ parseLine "package:/data/app/com.acme.app-1/base.apk=com.acme.app".data =
        some { name := "com.acme.app", apkPath := "/data/app/com.acme.app-1/base.apk",
               isSystem := false }
    ∧ parseLine "package:/system/app/Settings/Settings.apk=com.android.settings".data =
        some { name := "com.android.settings", apkPath := "/system/app/Settings/Settings.apk",
               isSystem := true } :=
  ⟨mem_parsePackages_isSystem, by decide, by decide⟩

/-- Witness for C5 on a parsed non-system package. -/
theorem c5_isSystem_marker_witness :
    ({ name := "b", apkPath := "/a", isSystem := false } : Package).isSystem =
      containsSub systemSeg ("/a" : String).data :=
  c5_isSystem_marker.1 ["package:/a=b".data] _ (by decide)

/-- Claim C7: a watcher for one serial discards events for other
serials, emits exactly one change per matching event (when delivery is
not cancelled) whose fields are the watched serial, the normalized old
and new states, and the processing-time stamp, and emission follows
the upstream order. -/
theorem c7_watcher_filter (x : String) :
    (∀ ev dc now rest, ev.serial ≠ x →
        watcherRun x (UpStep.event ev dc now :: rest) = watcherRun x rest)
    ∧ (∀ ev now rest, ev.serial = x →
        watcherRun x (UpStep.event ev false now :: rest) =
          (mkStateChange x ev now :: (watcherRun x rest).1, (watcherRun x rest).2))
    ∧ (∀ ev now, (mkStateChange x ev now).serial = x
        ∧ (mkStateChange x ev now).oldState = convertState ev.oldRawState
        ∧ (mkStateChange x ev now).newState = convertState ev.newRawState
        ∧ (mkStateChange x ev now).timestamp = now) := by
  refine ⟨?_, ?_, fun ev now => ⟨rfl, rfl, rfl, rfl⟩⟩
  · intro ev dc now rest h
    have hser : (ev.serial == x) = false := beq_eq_false_iff_ne.mpr h
    simp [watcherRun, hser]
  · intro ev now rest h
    have hser : (ev.serial == x) = true := beq_iff_eq.mpr h
    simp [watcherRun, hser]

/-- Witness for C7: a non-matching then a matching event. -/
theorem c7_watcher_filter_witness :
    watcherRun "X"
        [UpStep.event ⟨"Y", AdbDeviceState.stateOnline, AdbDeviceState.stateOffline⟩ false 5] =
      watcherRun "X" []
    ∧ watcherRun "X"
        [UpStep.event ⟨"X", AdbDeviceState.stateOffline, AdbDeviceState.stateOnline⟩ false 7] =
      (mkStateChange "X" ⟨"X", AdbDeviceState.stateOffline, AdbDeviceState.stateOnline⟩ 7
          :: (watcherRun "X" []).1, (watcherRun "X" []).2) :=
  ⟨(c7_watcher_filter "X").1 ⟨"Y", AdbDeviceState.stateOnline, AdbDeviceState.stateOffline⟩
      false 5 [] (by decide),
   (c7_watcher_filter "X").2.1 ⟨"X", AdbDeviceState.stateOffline, AdbDeviceState.stateOnline⟩
      7 [] rfl⟩

/-- Claim C8: the watcher's output stream closes exactly when some
step of the trace terminates the loop (context fired, upstream closed,
or context fired during a delivery); a terminating step makes
everything after it irrelevant (termination is final); and a trace
head of either closure cause immediately yields a closed, empty
stream — in particular upstream closure alone closes the stream
without any cancellation. -/
theorem c8_watcher_termination (x : String) :
    (∀ tr, (watcherRun x tr).2 = tr.any (stepTerminates x))
    ∧ (∀ pre post post', watcherRun x (pre ++ UpStep.ctxDone :: post) =
        watcherRun x (pre ++ UpStep.ctxDone :: post'))
    ∧ (∀ pre post post', watcherRun x (pre ++ UpStep.upstreamClosed :: post) =
        watcherRun x (pre ++ UpStep.upstreamClosed :: post'))
    ∧ (∀ post, watcherRun x (UpStep.upstreamClosed :: post) = ([], true))
    ∧ (∀ post, watcherRun x (UpStep.ctxDone :: post) = ([], true)) :=
  ⟨watcherRun_snd_eq_any x, watcherRun_ctxDone_final x, watcherRun_upstreamClosed_final x,
   fun _ => rfl, fun _ => rfl⟩

end AdbSrv
